import Mathlib

/-!
Verification of the Lumina document persistence and synchronization layer.

The definitions below are a shallow embedding of `src/services/storageService.ts`
(the blob codec and the document sync operations), of the fan-out generation in
the workspace component, and of the data model in `src/types.ts`.  Browser
builtins used by the source (`atob`, `String.prototype.split`,
`FileReader.readAsDataURL`) are modelled by executable Lean functions following
their standard (WHATWG) semantics.  Asynchronous store calls are modelled by
explicit outcome oracles: each operation takes a record describing what every
remote call it may issue would return, and the Lean function mirrors the
control flow of the source over those outcomes.
-/

namespace Lumina

/-- Bytes, the elements of a binary payload. -/
abbrev Byte := Fin 256

/-- Truncate a natural number into a byte (the arithmetic below never exceeds 255). -/
def mkByte (n : Nat) : Byte := ⟨n % 256, Nat.mod_lt n (by decide)⟩

/-- The standard base64 alphabet, used by the browser builtins `atob`/`btoa` and by
`FileReader.readAsDataURL`. -/
def b64alphabet : List Char :=
  ("ABCDEFGHIJKLMNOPQRSTUVWXYZabcdefghijklmnopqrstuvwxyz0123456789+/").toList

/-- The alphabet character for a 6-bit value. -/
def b64char (n : Nat) : Char := b64alphabet.getD n ('A')

/-- The 6-bit value of an alphabet character, `none` for characters outside the
alphabet (such as `=` or `,`). -/
def b64index (c : Char) : Option Nat := b64alphabet.findIdx? (fun x => x == c)

/-- Standard padded base64 encoding of a byte sequence, three bytes to four
characters; models the payload part of the data URI produced by
`FileReader.readAsDataURL` in `blobToBase64`. -/
def encode3 : List Byte → List Char
  | [] => []
  | [b0] => [b64char (b0.val / 4), b64char (b0.val % 4 * 16), ('='), ('=')]
  | [b0, b1] =>
      [b64char (b0.val / 4), b64char (b0.val % 4 * 16 + b1.val / 16),
       b64char (b1.val % 16 * 4), ('=')]
  | b0 :: b1 :: b2 :: rest =>
      b64char (b0.val / 4) :: b64char (b0.val % 4 * 16 + b1.val / 16) ::
      b64char (b1.val % 16 * 4 + b2.val / 64) :: b64char (b2.val % 64) :: encode3 rest

/-- The same encoding with the `=` padding omitted; auxiliary form used to state
what the padding strip of `atob` produces. -/
def encodeNoPad : List Byte → List Char
  | [] => []
  | [b0] => [b64char (b0.val / 4), b64char (b0.val % 4 * 16)]
  | [b0, b1] =>
      [b64char (b0.val / 4), b64char (b0.val % 4 * 16 + b1.val / 16),
       b64char (b1.val % 16 * 4)]
  | b0 :: b1 :: b2 :: rest =>
      b64char (b0.val / 4) :: b64char (b0.val % 4 * 16 + b1.val / 16) ::
      b64char (b1.val % 16 * 4 + b2.val / 64) :: b64char (b2.val % 64) :: encodeNoPad rest

/-- The padding strip of WHATWG forgiving-base64 (the specification of the
browser builtin `atob`): if the input length is a multiple of four, up to two trailing `=` are
removed; any other `=` is left in place and later rejected as an invalid
character. -/
def dropPadQ : List Char → List Char
  | c0 :: c1 :: c2 :: c3 :: rest =>
      if rest = [] then
        if c2 = ('=') ∧ c3 = ('=') then [c0, c1]
        else if c3 = ('=') then [c0, c1, c2]
        else [c0, c1, c2, c3]
      else c0 :: c1 :: c2 :: c3 :: dropPadQ rest
  | l => l

/-- Map every character to its 6-bit value, failing on any character outside the
base64 alphabet. -/
def b64vals : List Char → Option (List Nat)
  | [] => some []
  | c :: rest =>
      match b64index c, b64vals rest with
      | some v, some vs => some (v :: vs)
      | _, _ => none

/-- Reassemble bytes from 6-bit values, four values to three bytes; a trailing
group of two or three values yields one or two bytes, leftover bits are
discarded (forgiving-base64). -/
def valsToBytes : List Nat → List Byte
  | v0 :: v1 :: v2 :: v3 :: rest =>
      mkByte (v0 * 4 + v1 / 16) :: mkByte (v1 % 16 * 16 + v2 / 4) ::
      mkByte (v2 % 4 * 64 + v3) :: valsToBytes rest
  | [v0, v1] => [mkByte (v0 * 4 + v1 / 16)]
  | [v0, v1, v2] => [mkByte (v0 * 4 + v1 / 16), mkByte (v1 % 16 * 16 + v2 / 4)]
  | _ => []

/-- Model of the browser builtin `atob` (WHATWG forgiving-base64 decode): strip the
padding, reject a length congruent to 1 mod 4, then decode; `none` models the
`InvalidCharacterError` exception. -/
def atob (s : List Char) : Option (List Byte) :=
  let t := dropPadQ s
  if t.length % 4 = 1 then none
  else (b64vals t).map valsToBytes

/-- Model of the JavaScript `String.prototype.split` with a single-character
separator, as used on the comma by `base64.split` in the source. -/
def splitOnChar (sep : Char) : List Char → List (List Char)
  | [] => [[]]
  | c :: rest =>
      let r := splitOnChar sep rest
      if c = sep then [] :: r
      else
        match r with
        | [] => [[c]]
        | h :: t => (c :: h) :: t

/-- A binary blob: byte content plus a MIME type, modelling the JavaScript
`Blob`. -/
structure JsBlob where
  bytes : List Byte
  type : String
deriving DecidableEq

/-- Embedding of `blobToBase64` (storageService.ts lines 16 to 23).  The source
delegates to `FileReader.readAsDataURL`, whose result is the standard data URI
`data:<type>;base64,<payload>`; modelled from the spec of that platform API. -/
def blobToBase64 (blob : JsBlob) : String :=
  String.mk (("data:").toList ++ blob.type.toList ++ (";base64,").toList ++
    encode3 blob.bytes)

/-- Embedding of `base64ToBlob` (storageService.ts lines 5 to 13): take the
piece after the first comma (index 1 of the comma `split`) and decode it with `atob`
into the bytes of a blob carrying the given MIME type.  When the input has no
comma the JavaScript index is `undefined` and `atob` throws; both failure modes
are `none` here. -/
def base64ToBlob (base64 : String) (mimeType : String) : Option JsBlob :=
  match (splitOnChar (',') base64.toList).get? 1 with
  | some payload => (atob payload).map (fun bs => JsBlob.mk bs mimeType)
  | none => none

/-- The authenticated user, from `types.ts`. -/
structure User where
  id : String
  name : String
  email : String
deriving DecidableEq

/-- A chat message, from `types.ts`. -/
structure ChatMessage where
  id : String
  role : String
  text : String
  timestamp : Nat
  suggestedQuestions : Option (List String)
deriving DecidableEq

/-- A key citation, from `types.ts`. -/
structure Citation where
  text : String
  author : Option String
  context : String
deriving DecidableEq

/-- A mind-map tree, from `types.ts`. -/
inductive MindMapNode where
  | node (label : String) (children : List MindMapNode)

/-- An explained concept of the notes history, as the workspace component
constructs it (id, term, explanation, timestamp). -/
structure ExplainedConcept where
  id : String
  term : String
  explanation : String
  timestamp : Nat
deriving DecidableEq

/-- The central Document aggregate, from `types.ts`.  Optional TypeScript
fields become `Option`; `base64Data`, though declared required, is absent on
documents reconstructed from the metadata table, so it is optional here;
`file_path` is the extra runtime field set when a row is read back, and
`userNotes` and `conceptHistory` are the runtime fields the workspace component
adds and persists through the same rest spread. -/
structure Document where
  id : String
  name : String
  size : Nat
  type : String
  uploadDate : String
  base64Data : Option String
  file_path : Option String
  summary : Option String
  summaryType : Option String
  summaryLang : Option String
  chatHistory : Option (List ChatMessage)
  mindMap : Option MindMapNode
  strategicAnalysis : Option String
  keyCitations : Option (List Citation)
  studyGuide : Option String
  faq : Option (List (String × String))
  userNotes : Option String
  conceptHistory : Option (List ExplainedConcept)

/-- The shape of the `app_data` JSON column: the result of the rest spread
`const (base64Data, ...metaData) = doc` in `saveDocument`, i.e. every Document
field except the binary payload. -/
structure AppData where
  id : String
  name : String
  size : Nat
  type : String
  uploadDate : String
  file_path : Option String
  summary : Option String
  summaryType : Option String
  summaryLang : Option String
  chatHistory : Option (List ChatMessage)
  mindMap : Option MindMapNode
  strategicAnalysis : Option String
  keyCitations : Option (List Citation)
  studyGuide : Option String
  faq : Option (List (String × String))
  userNotes : Option String
  conceptHistory : Option (List ExplainedConcept)

/-- Embedding of the rest spread in `saveDocument` (storageService.ts line 53):
drop `base64Data`, keep every other field. -/
def mkAppData (doc : Document) : AppData :=
  { id := doc.id, name := doc.name, size := doc.size, type := doc.type,
    uploadDate := doc.uploadDate, file_path := doc.file_path,
    summary := doc.summary, summaryType := doc.summaryType,
    summaryLang := doc.summaryLang, chatHistory := doc.chatHistory,
    mindMap := doc.mindMap, strategicAnalysis := doc.strategicAnalysis,
    keyCitations := doc.keyCitations, studyGuide := doc.studyGuide,
    faq := doc.faq, userNotes := doc.userNotes,
    conceptHistory := doc.conceptHistory }

/-- The payload object sent to the metadata upsert (storageService.ts lines 55
to 64). -/
structure Payload where
  id : String
  user_id : String
  name : String
  size : Nat
  type : String
  upload_date : String
  file_path : Option String
  app_data : AppData

/-- Build the upsert payload exactly as `saveDocument` does. -/
def mkPayload (u : User) (doc : Document) (filePath : Option String) : Payload :=
  { id := doc.id, user_id := u.id, name := doc.name, size := doc.size,
    type := doc.type, upload_date := doc.uploadDate, file_path := filePath,
    app_data := mkAppData doc }

/-- A stored metadata row: the upserted columns plus the server-assigned
`created_at` used by the list ordering. -/
structure Row where
  id : String
  user_id : String
  name : String
  size : Nat
  type : String
  upload_date : String
  file_path : Option String
  app_data : AppData
  created_at : Nat

/-- The remote state: the metadata table and the object store (path-keyed
blobs). -/
structure DB where
  rows : List Row
  objects : List (String × JsBlob)

/-- Store-level failures (transport fault or missing object/row). -/
inductive StoreErr where
  | storeError
  | notFound
deriving DecidableEq

/-- Failures `saveDocument` can throw. -/
inductive SaveErr where
  | notAuthenticated
  | decodeError
  | store (e : StoreErr)
deriving DecidableEq

/-- The row slice (id and file_path columns) the select returns in `saveDocument`. -/
structure RowInfo where
  id : String
  file_path : Option String
deriving DecidableEq

/-- Outcome oracle for the three remote calls `saveDocument` may issue.  The
`.single()` read returns either the row slice or an error (also the way a
missing row manifests); the upload and the upsert either succeed or fail. -/
structure SaveOutcomes where
  readExisting : Except StoreErr RowInfo
  uploadError : Option StoreErr
  upsertError : Option StoreErr

/-- How many object-store puts and metadata upserts a save issued. -/
structure SaveTrace where
  puts : Nat
  upserts : Nat
deriving DecidableEq

/-- The observable result of a save: the thrown-or-ok outcome, the call trace,
and the payload handed to the upsert (if the upsert call was reached). -/
structure SaveRun where
  result : Except SaveErr Unit
  trace : SaveTrace
  upserted : Option Payload

/-- The deterministic object path `{userId}/{docId}.pdf`. -/
def fileNameFor (u : User) (doc : Document) : String :=
  u.id ++ "/" ++ doc.id ++ ".pdf"

/-- The tail of `saveDocument` when no upload happens: prepare the payload and
issue the single upsert. -/
def upsertOnly (u : User) (doc : Document) (filePath : Option String)
    (o : SaveOutcomes) : SaveRun :=
  let payload := mkPayload u doc filePath
  match o.upsertError with
  | some e => { result := .error (.store e), trace := ⟨0, 1⟩, upserted := some payload }
  | none => { result := .ok (), trace := ⟨0, 1⟩, upserted := some payload }

/-- Embedding of `saveDocument` (storageService.ts lines 25 to 72).  The error
of the existing-row read is destructured away by the source (`const ( data:
existing ) = ...`), so only its `data` is consulted; the upload happens exactly
when the document carries a truthy binary payload and either no row or no
recorded path was found; the upload error and the upsert error are thrown. -/
def saveDocument (user : Option User) (doc : Document) (o : SaveOutcomes) : SaveRun :=
  match user with
  | none => { result := .error .notAuthenticated, trace := ⟨0, 0⟩, upserted := none }
  | some u =>
    let existing : Option RowInfo := o.readExisting.toOption
    let filePath0 : Option String := existing.bind (fun r => r.file_path)
    match doc.base64Data with
    | some data =>
      if data.isEmpty then upsertOnly u doc filePath0 o
      else if existing.isNone ∨ filePath0.isNone then
        match base64ToBlob data doc.type with
        | none => { result := .error .decodeError, trace := ⟨0, 0⟩, upserted := none }
        | some _blob =>
          match o.uploadError with
          | some e => { result := .error (.store e), trace := ⟨1, 0⟩, upserted := none }
          | none =>
            let payload := mkPayload u doc (some (fileNameFor u doc))
            match o.upsertError with
            | some e =>
                { result := .error (.store e), trace := ⟨1, 1⟩, upserted := some payload }
            | none => { result := .ok (), trace := ⟨1, 1⟩, upserted := some payload }
      else upsertOnly u doc filePath0 o
    | none => upsertOnly u doc filePath0 o

/-- Modelled from the spec: the metadata store enforces per-user row isolation
server-side (the code comments call it RLS, the spec calls the rows
tenant-isolated), so a query issued by a session sees exactly the rows whose
`user_id` is the session user.  The policy itself is database configuration
that is not part of `src/`. -/
def visibleRows (u : User) (db : DB) : List Row :=
  db.rows.filter (fun r => r.user_id = u.id)

/-- Insert a row into a list sorted by `created_at` descending. -/
def insertDesc (r : Row) : List Row → List Row
  | [] => [r]
  | x :: xs => if x.created_at ≤ r.created_at then r :: x :: xs else x :: insertDesc r xs

/-- Sort rows by `created_at` descending; models the descending `.order` clause
executed by the database. -/
def sortDesc : List Row → List Row
  | [] => []
  | r :: rs => insertDesc r (sortDesc rs)

/-- Reconstruct a Document from a row, embedding
`(...row.app_data, id: row.id, file_path: row.file_path)` in
`getAllDocuments`: all `app_data` fields, with `id` and `file_path` overridden
from the columns and no `base64Data`. -/
def rowToDocument (row : Row) : Document :=
  { id := row.id, name := row.app_data.name, size := row.app_data.size,
    type := row.app_data.type, uploadDate := row.app_data.uploadDate,
    base64Data := none, file_path := row.file_path,
    summary := row.app_data.summary, summaryType := row.app_data.summaryType,
    summaryLang := row.app_data.summaryLang,
    chatHistory := row.app_data.chatHistory, mindMap := row.app_data.mindMap,
    strategicAnalysis := row.app_data.strategicAnalysis,
    keyCitations := row.app_data.keyCitations,
    studyGuide := row.app_data.studyGuide, faq := row.app_data.faq,
    userNotes := row.app_data.userNotes,
    conceptHistory := row.app_data.conceptHistory }

/-- Embedding of `getAllDocuments` (storageService.ts lines 78 to 98): no user
gives an empty list; a select error is thrown; otherwise every visible row,
newest first, reconstructed without the binary payload. -/
def getAllDocuments (user : Option User) (db : DB) (listError : Option StoreErr) :
    Except StoreErr (List Document) :=
  match user with
  | none => .ok []
  | some u =>
    match listError with
    | some e => .error e
    | none => .ok ((sortDesc (visibleRows u db)).map rowToDocument)

/-- Look an object up by path in the object store. -/
def lookupObject (db : DB) (path : String) : Option JsBlob :=
  (db.objects.find? (fun x => x.1 = path)).map Prod.snd

/-- Embedding of `loadDocumentFile` (storageService.ts lines 103 to 112):
download the blob at the path (a transport fault or a missing object is
thrown) and return it base64-encoded. -/
def loadDocumentFile (db : DB) (path : String) (transportError : Bool) :
    Except StoreErr String :=
  if transportError then .error .storeError
  else
    match lookupObject db path with
    | none => .error .notFound
    | some blob => .ok (blobToBase64 blob)

/-- The row targeted by `deleteDocument`: matching id, and owned by the
session user (per-user row visibility, modelled from the spec). -/
def matchesDoc (docId : String) (u : User) (r : Row) : Prop :=
  r.id = docId ∧ r.user_id = u.id

instance (docId : String) (u : User) (r : Row) : Decidable (matchesDoc docId u r) :=
  inferInstanceAs (Decidable (And _ _))

/-- Outcome oracle for the remote calls of `deleteDocument`: the row read and
the object-store remove can fail (the source checks neither result), and the
row delete can fail (thrown). -/
structure DeleteOutcomes where
  readFails : Bool
  removeFails : Bool
  deleteFails : Bool
deriving DecidableEq

/-- Embedding of `deleteDocument` (storageService.ts lines 114 to 127).  The
error of the row read is ignored (a failed read behaves as no row); if a path was
found the object remove is issued and its result discarded; finally the row
delete is issued and its error thrown.  Row visibility is the per-user
isolation of `visibleRows`, modelled from the spec. -/
def deleteDocument (u : User) (db : DB) (docId : String) (o : DeleteOutcomes) :
    DB × Except StoreErr Unit :=
  let row : Option Row :=
    if o.readFails then none
    else db.rows.find? (fun r => matchesDoc docId u r)
  let fp : Option String := row.bind (fun r => r.file_path)
  let db1 : DB :=
    match fp with
    | some p =>
        if o.removeFails then db
        else { db with objects := db.objects.filter (fun x => x.1 ≠ p) }
    | none => db
  if o.deleteFails then (db1, .error .storeError)
  else ({ db1 with rows := db1.rows.filter (fun r => ¬ matchesDoc docId u r) },
        .ok ())

/-- The sentinel id used by the `.neq` filter of `clearAllData`. -/
def zeroUuid : String := "00000000-0000-0000-0000-000000000000"

/-- Embedding of `clearAllData` (storageService.ts lines 129 to 136): one row
delete with the filter `id ≠ zeroUuid` (meant as delete-all), restricted to the
rows of the caller by the server-side isolation of `visibleRows`; the delete error
is thrown and the object store is not touched. -/
def clearAllData (u : User) (db : DB) (deleteError : Option StoreErr) :
    DB × Except StoreErr Unit :=
  match deleteError with
  | some e => (db, .error e)
  | none =>
      ({ db with rows := db.rows.filter (fun r => ¬(r.user_id = u.id ∧ r.id ≠ zeroUuid)) },
       .ok ())

/-- Generation failures of the AI backend. -/
inductive GenErr where
  | genError
deriving DecidableEq

/-- Outcome oracle for the three concurrent generation calls of
`loadDeepDive`. -/
structure DeepDiveOutcomes where
  mindMapResult : Except GenErr MindMapNode
  analysisResult : Except GenErr String
  citationsResult : Except GenErr (List Citation)

/-- Embedding of `loadDeepDive` (Workspace component, unnamed part_000 lines
635 to 652): if all three artifacts are cached, return; otherwise join the
three calls with `Promise.all` semantics — only when all three needed results
succeed is the document updated with all three fields; a single failure is
caught and nothing is written. -/
def loadDeepDive (doc : Document) (o : DeepDiveOutcomes) : Document :=
  if doc.mindMap.isSome ∧ doc.strategicAnalysis.isSome ∧ doc.keyCitations.isSome then
    doc
  else
    let mm : Except GenErr MindMapNode :=
      match doc.mindMap with
      | some m => .ok m
      | none => o.mindMapResult
    let sa : Except GenErr String :=
      match doc.strategicAnalysis with
      | some s => .ok s
      | none => o.analysisResult
    let kc : Except GenErr (List Citation) :=
      match doc.keyCitations with
      | some k => .ok k
      | none => o.citationsResult
    match mm, sa, kc with
    | .ok m, .ok s, .ok k =>
        { doc with mindMap := some m, strategicAnalysis := some s, keyCitations := some k }
    | _, _, _ => doc

/-- Concrete session user for witness runs. -/
def aliceUser : User := ⟨"user-1", "Alice", "alice@example.com"⟩

/-- Empty artifact bag for witness rows. -/
def emptyAppData : AppData :=
  ⟨"", "", 0, "", "", none, none, none, none, none, none, none, none, none, none,
   none, none⟩

/-- A freshly selected document carrying its binary payload (the data URI of
the single byte 0x41) and no recorded path. -/
def freshDoc : Document :=
  ⟨"doc-1", "notes.pdf", 10240, "application/pdf", "2026-01-01",
   some ("data:application/pdf;base64,QQ=="), none, none, none, none, none,
   none, none, none, none, none, none, none⟩

/-- The same document after hydration-free reload: no payload, recorded path. -/
def metaDoc : Document :=
  { freshDoc with base64Data := none, file_path := some ("user-1/doc-1.pdf") }

/-- Outcomes of a first save: the `.single()` read errors (no row yet), the
upload and upsert succeed. -/
def freshSave : SaveOutcomes := ⟨.error .notFound, none, none⟩

/-- Outcomes of a re-save: the read finds the row with its recorded path. -/
def resaveOutcomes : SaveOutcomes := ⟨.ok ⟨"doc-1", some ("user-1/doc-1.pdf")⟩, none, none⟩

/-- Outcomes where the existing-row read fails with a transport error. -/
def readFailSave : SaveOutcomes := ⟨.error .storeError, none, none⟩

/-- Outcomes where the object-store upload fails. -/
def uploadFailSave : SaveOutcomes := ⟨.error .notFound, some .storeError, none⟩

/-- Outcomes where the metadata upsert fails. -/
def upsertFailSave : SaveOutcomes := ⟨.error .notFound, none, some .storeError⟩

/-- The stored blob for witness runs. -/
def exBlob : JsBlob := ⟨[(65 : Byte)], "application/pdf"⟩

/-- The stored metadata row of `freshDoc` after its first save. -/
def storedRow : Row :=
  ⟨"doc-1", "user-1", "notes.pdf", 10240, "application/pdf", "2026-01-01",
   some ("user-1/doc-1.pdf"), emptyAppData, 7⟩

/-- A remote state holding that one row and its object. -/
def exDb : DB := ⟨[storedRow], [(("user-1/doc-1.pdf"), exBlob)]⟩

/-- A row owned by the session user whose id is the sentinel UUID. -/
def sentinelRow : Row := ⟨zeroUuid, "user-1", "n", 1, "t", "d", none, emptyAppData, 5⟩

/-- Delete outcomes: every call succeeds. -/
def okDelete : DeleteOutcomes := ⟨false, false, false⟩

/-- Delete outcomes: the object-store remove fails (ignored by the source). -/
def removeFailDelete : DeleteOutcomes := ⟨false, true, false⟩

/-- Delete outcomes: the row read fails (ignored by the source). -/
def readFailDelete : DeleteOutcomes := ⟨true, false, false⟩

/-- Deep-dive outcomes where the mind-map generation fails. -/
def genFailOutcomes : DeepDiveOutcomes := ⟨.error .genError, .ok ("analysis"), .ok []⟩

/-- Deep-dive outcomes where all three generations succeed. -/
def genOkOutcomes : DeepDiveOutcomes :=
  ⟨.ok (MindMapNode.node ("root") []), .ok ("analysis"), .ok []⟩

end Lumina


namespace Lumina

/-- Every 6-bit value maps to an alphabet character that decodes back to it. -/
theorem b64index_b64char_fin : ∀ v : Fin 64, b64index (b64char v.val) = some v.val := by
  decide

/-- Decoding inverts the alphabet map on values below 64. -/
theorem b64index_b64char (n : Nat) (h : n < 64) : b64index (b64char n) = some n :=
  b64index_b64char_fin ⟨n, h⟩

/-- Alphabet characters of in-range values are never the padding character. -/
theorem b64char_ne_pad_fin : ∀ v : Fin 64, b64char v.val ≠ ('=') := by
  decide

/-- No alphabet character is the padding character. -/
theorem b64char_ne_pad (n : Nat) : b64char n ≠ ('=') := by
  by_cases h : n < 64
  · exact b64char_ne_pad_fin ⟨n, h⟩
  · unfold b64char
    rw [List.getD_eq_default]
    · decide
    · have hlen : b64alphabet.length = 64 := by decide
      omega

/-- Alphabet characters of in-range values are never a comma. -/
theorem b64char_ne_comma_fin : ∀ v : Fin 64, b64char v.val ≠ (',') := by
  decide

/-- No alphabet character is a comma. -/
theorem b64char_ne_comma (n : Nat) : b64char n ≠ (',') := by
  by_cases h : n < 64
  · exact b64char_ne_comma_fin ⟨n, h⟩
  · unfold b64char
    rw [List.getD_eq_default]
    · decide
    · have hlen : b64alphabet.length = 64 := by decide
      omega

/-- The encoder produces output only for nonempty input. -/
theorem encode3_ne_nil (b : List Byte) (h : b ≠ []) : encode3 b ≠ [] := by
  match b with
  | [] => exact absurd rfl h
  | [b0] => simp [encode3]
  | [b0, b1] => simp [encode3]
  | b0 :: b1 :: b2 :: rest => simp [encode3]

/-- A final quadruple ending in two padding characters loses both. -/
theorem dropPadQ_quad1 (c0 c1 : Char) :
    dropPadQ [c0, c1, ('='), ('=')] = [c0, c1] := by
  simp [dropPadQ]

/-- A final quadruple ending in one padding character loses it. -/
theorem dropPadQ_quad2 (c0 c1 c2 : Char) (h : c2 ≠ ('=')) :
    dropPadQ [c0, c1, c2, ('=')] = [c0, c1, c2] := by
  simp [dropPadQ, h]

/-- A final quadruple with no padding characters is kept whole. -/
theorem dropPadQ_quad0 (c0 c1 c2 c3 : Char) (h2 : c2 ≠ ('=')) (h3 : c3 ≠ ('=')) :
    dropPadQ [c0, c1, c2, c3] = [c0, c1, c2, c3] := by
  simp [dropPadQ, h2, h3]

/-- A non-final quadruple is kept whole and the strip continues to the right. -/
theorem dropPadQ_cons4 (c0 c1 c2 c3 : Char) (rest : List Char) (h : rest ≠ []) :
    dropPadQ (c0 :: c1 :: c2 :: c3 :: rest) = c0 :: c1 :: c2 :: c3 :: dropPadQ rest := by
  simp [dropPadQ, h]

/-- Stripping the padding from the padded encoding yields the unpadded one. -/
theorem dropPadQ_encode3 (b : List Byte) : dropPadQ (encode3 b) = encodeNoPad b := by
  induction b using encode3.induct with
  | case1 => rfl
  | case2 b0 =>
      simp only [encode3, encodeNoPad]
      exact dropPadQ_quad1 _ _
  | case3 b0 b1 =>
      simp only [encode3, encodeNoPad]
      exact dropPadQ_quad2 _ _ _ (b64char_ne_pad _)
  | case4 b0 b1 b2 rest ih =>
      by_cases hr : rest = []
      · subst hr
        simp only [encode3, encodeNoPad]
        exact dropPadQ_quad0 _ _ _ _ (b64char_ne_pad _) (b64char_ne_pad _)
      · have hne : encode3 rest ≠ [] := encode3_ne_nil rest hr
        simp only [encode3, encodeNoPad]
        rw [dropPadQ_cons4 _ _ _ _ _ hne, ih]

/-- The unpadded encoding never has length congruent to 1 mod 4. -/
theorem encodeNoPad_length_mod (b : List Byte) : (encodeNoPad b).length % 4 ≠ 1 := by
  induction b using encodeNoPad.induct with
  | case1 => simp [encodeNoPad]
  | case2 b0 => simp [encodeNoPad]
  | case3 b0 b1 => simp [encodeNoPad]
  | case4 b0 b1 b2 rest ih =>
      simp only [encodeNoPad, List.length_cons]
      omega

/-- Unfolding lemma for the byte truncation. -/
theorem mkByte_val (n : Nat) : (mkByte n).val = n % 256 := rfl

/-- Byte truncation is the identity on values that fit. -/
theorem mkByte_eq (n : Nat) (b : Byte) (h : n = b.val) : mkByte n = b := by
  apply Fin.ext
  rw [mkByte_val]
  have := b.isLt
  omega

/-- Decoding the unpadded encoding recovers the bytes. -/
theorem decode_encodeNoPad (b : List Byte) :
    (b64vals (encodeNoPad b)).map valsToBytes = some b := by
  induction b using encodeNoPad.induct with
  | case1 => rfl
  | case2 b0 =>
      have h0 := b0.isLt
      simp only [encodeNoPad, b64vals,
        b64index_b64char (b0.val / 4) (by omega),
        b64index_b64char (b0.val % 4 * 16) (by omega), Option.map_some']
      apply congrArg some
      simp only [valsToBytes]
      rw [mkByte_eq _ b0 (by omega)]
  | case3 b0 b1 =>
      have h0 := b0.isLt
      have h1 := b1.isLt
      simp only [encodeNoPad, b64vals,
        b64index_b64char (b0.val / 4) (by omega),
        b64index_b64char (b0.val % 4 * 16 + b1.val / 16) (by omega),
        b64index_b64char (b1.val % 16 * 4) (by omega), Option.map_some']
      apply congrArg some
      simp only [valsToBytes]
      rw [mkByte_eq _ b0 (by omega), mkByte_eq _ b1 (by omega)]
  | case4 b0 b1 b2 rest ih =>
      have h0 := b0.isLt
      have h1 := b1.isLt
      have h2 := b2.isLt
      rcases hv : b64vals (encodeNoPad rest) with _ | vs
      · rw [hv] at ih
        simp at ih
      · rw [hv] at ih
        simp only [Option.map_some', Option.some.injEq] at ih
        simp only [encodeNoPad, b64vals,
          b64index_b64char (b0.val / 4) (by omega),
          b64index_b64char (b0.val % 4 * 16 + b1.val / 16) (by omega),
          b64index_b64char (b1.val % 16 * 4 + b2.val / 64) (by omega),
          b64index_b64char (b2.val % 64) (by omega), hv, Option.map_some']
        apply congrArg some
        simp only [valsToBytes]
        rw [mkByte_eq _ b0 (by omega), mkByte_eq _ b1 (by omega), mkByte_eq _ b2 (by omega), ih]

/-- The browser decode inverts the padded encoding on every byte sequence. -/
theorem atob_encode3 (b : List Byte) : atob (encode3 b) = some b := by
  unfold atob
  rw [dropPadQ_encode3]
  rw [if_neg (encodeNoPad_length_mod b)]
  exact decode_encodeNoPad b

/-- Every character of the padded encoding is an alphabet character or padding,
hence never a comma. -/
theorem comma_not_mem_encode3 (b : List Byte) : (',') ∉ encode3 b := by
  induction b using encode3.induct with
  | case1 => simp [encode3]
  | case2 b0 =>
      simp only [encode3, List.mem_cons, List.not_mem_nil, or_false]
      push_neg
      refine ⟨fun h => b64char_ne_comma _ h.symm, fun h => b64char_ne_comma _ h.symm, by decide, by decide⟩
  | case3 b0 b1 =>
      simp only [encode3, List.mem_cons, List.not_mem_nil, or_false]
      push_neg
      refine ⟨fun h => b64char_ne_comma _ h.symm, fun h => b64char_ne_comma _ h.symm,
        fun h => b64char_ne_comma _ h.symm, by decide⟩
  | case4 b0 b1 b2 rest ih =>
      simp only [encode3, List.mem_cons]
      push_neg
      refine ⟨fun h => b64char_ne_comma _ h.symm, fun h => b64char_ne_comma _ h.symm,
        fun h => b64char_ne_comma _ h.symm, fun h => b64char_ne_comma _ h.symm, ih⟩

/-- Splitting a separator-free list yields the single whole piece. -/
theorem splitOnChar_no_sep (sep : Char) (l : List Char) (h : sep ∉ l) :
    splitOnChar sep l = [l] := by
  induction l with
  | nil => rfl
  | cons c rest ih =>
      have hc : c ≠ sep := fun hcs => h (hcs ▸ List.mem_cons_self c rest)
      have hrest : sep ∉ rest := fun hm => h (List.mem_cons_of_mem c hm)
      simp only [splitOnChar, if_neg hc, ih hrest]

/-- Splitting around the single separator occurrence yields the two pieces. -/
theorem splitOnChar_single (sep : Char) (a b : List Char) (ha : sep ∉ a) :
    splitOnChar sep (a ++ sep :: b) = a :: splitOnChar sep b := by
  induction a with
  | nil => simp [splitOnChar]
  | cons c rest ih =>
      have hc : c ≠ sep := fun hcs => ha (hcs ▸ List.mem_cons_self c rest)
      have hrest : sep ∉ rest := fun hm => ha (List.mem_cons_of_mem c hm)
      simp only [List.cons_append, splitOnChar, if_neg hc]
      rw [show rest.append (sep :: b) = rest ++ sep :: b from rfl, ih hrest]


/-- The data-URI prefix written by the encoder contains no comma before the
separator, provided the MIME string has none. -/
theorem comma_not_mem_header (m : String) (hm : (',') ∉ m.toList) :
    (',') ∉ (("data:").toList ++ m.toList ++ (";base64").toList) := by
  intro h
  rcases List.mem_append.mp h with h1 | h2
  · rcases List.mem_append.mp h1 with h3 | h4
    · exact absurd h3 (by decide)
    · exact hm h4
  · exact absurd h2 (by decide)

/-- Splitting the data URI of the encoder at commas isolates exactly the header and
the base64 payload. -/
theorem splitOnChar_blobToBase64 (bs : List Byte) (m : String) (hm : (',') ∉ m.toList) :
    splitOnChar (',') (blobToBase64 (JsBlob.mk bs m)).toList
      = [("data:").toList ++ m.toList ++ (";base64").toList, encode3 bs] := by
  have hdata : (blobToBase64 (JsBlob.mk bs m)).toList
      = (("data:").toList ++ m.toList ++ (";base64").toList) ++ (',') :: encode3 bs := by
    show ("data:").toList ++ m.toList ++ (";base64,").toList ++ encode3 bs = _
    have hB : (";base64,").toList = (";base64").toList ++ [(',')] := by decide
    rw [hB]
    simp [List.append_assoc]
  rw [hdata, splitOnChar_single (',') _ _ (comma_not_mem_header m hm),
      splitOnChar_no_sep (',') _ (comma_not_mem_encode3 bs)]

/-- C2 (confirmed).  Blob codec round-trip: for every byte sequence, including
the empty one and arbitrary binary content, and every MIME string (a MIME type
never contains a comma, which is the property used), decoding the data URI
produced by encoding the bytes yields exactly the original bytes:
`base64ToBlob (blobToBase64 blob) mime` reproduces the blob. -/
theorem blob_codec_roundtrip (bs : List Byte) (m : String) (hm : (',') ∉ m.toList) :
    base64ToBlob (blobToBase64 (JsBlob.mk bs m)) m = some (JsBlob.mk bs m) := by
  unfold base64ToBlob
  rw [splitOnChar_blobToBase64 bs m hm]
  simp only [List.get?]
  rw [atob_encode3]
  rfl

/-- Witness for C2: the round-trip at the concrete bytes 0x00 0xFF 0x0A with
the PDF MIME type. -/
theorem blob_codec_roundtrip_witness :
    ((',') ∉ ("application/pdf").toList) ∧
    base64ToBlob (blobToBase64 (JsBlob.mk [(0 : Byte), (255 : Byte), (10 : Byte)]
        ("application/pdf"))) ("application/pdf")
      = some (JsBlob.mk [(0 : Byte), (255 : Byte), (10 : Byte)] ("application/pdf")) :=
  ⟨by decide, blob_codec_roundtrip _ _ (by decide)⟩

/-- C3 (corrected), counterexample.  The claim says `base64ToBlob` tolerates a
bare base64 payload with no data-URI header.  At the concrete valid base64
input `QQ==` (the byte 0x41, as `atob` itself shows) the function returns
`none` instead of the raw bytes: the comma-indexed header strip is mandatory. -/
theorem bare_payload_counterexample :
    atob (("QQ==").toList) = some [(65 : Byte)] ∧
    base64ToBlob ("QQ==") ("application/pdf") = none := by
  constructor
  · decide
  · rfl

/-- C3 (corrected), amended claim.  `base64ToBlob` takes the piece after the
first comma; on any input with no comma (in particular every bare base64
payload) the decode fails instead of returning the bytes of the payload. -/
theorem base64ToBlob_requires_header (s m : String) (h : (',') ∉ s.toList) :
    base64ToBlob s m = none := by
  unfold base64ToBlob
  rw [splitOnChar_no_sep _ _ h]
  rfl

/-- Witness for the amended C3 at the bare payload `AAAA`. -/
theorem base64ToBlob_requires_header_witness :
    ((',') ∉ ("AAAA").toList) ∧ base64ToBlob ("AAAA") ("text/plain") = none :=
  ⟨by decide, base64ToBlob_requires_header _ _ (by decide)⟩

/-- C7 (confirmed).  The `app_data` value upserted for a document is exactly
the rest spread dropping the binary payload: it carries every non-binary field
(summary and its parameters, chat history, all cached artifacts, the faq, the
user notes and the concept history) and the `AppData` shape has no binary field
at all, so any Document reconstructed from a row is payload-free. -/
theorem appData_excludes_binary (doc : Document) (u : User) (filePath : Option String) :
    (mkPayload u doc filePath).app_data = mkAppData doc ∧
    (mkAppData doc).id = doc.id ∧
    (mkAppData doc).name = doc.name ∧
    (mkAppData doc).size = doc.size ∧
    (mkAppData doc).type = doc.type ∧
    (mkAppData doc).uploadDate = doc.uploadDate ∧
    (mkAppData doc).summary = doc.summary ∧
    (mkAppData doc).summaryType = doc.summaryType ∧
    (mkAppData doc).summaryLang = doc.summaryLang ∧
    (mkAppData doc).chatHistory = doc.chatHistory ∧
    (mkAppData doc).mindMap = doc.mindMap ∧
    (mkAppData doc).strategicAnalysis = doc.strategicAnalysis ∧
    (mkAppData doc).keyCitations = doc.keyCitations ∧
    (mkAppData doc).studyGuide = doc.studyGuide ∧
    (mkAppData doc).faq = doc.faq ∧
    (mkAppData doc).userNotes = doc.userNotes ∧
    (mkAppData doc).conceptHistory = doc.conceptHistory ∧
    (∀ row : Row, (rowToDocument row).base64Data = none) :=
  ⟨rfl, rfl, rfl, rfl, rfl, rfl, rfl, rfl, rfl, rfl, rfl, rfl, rfl, rfl, rfl,
   rfl, rfl, fun _ => rfl⟩

/-- C10 (confirmed).  With no authenticated user, `saveDocument` rejects with
the not-authenticated error before issuing any store call (empty trace, no
upsert payload), while `getAllDocuments` does not error: it returns the empty
list whatever the table state would answer. -/
theorem unauthenticated_asymmetry (doc : Document) (o : SaveOutcomes) (db : DB)
    (e : Option StoreErr) :
    (saveDocument none doc o).result = .error .notAuthenticated ∧
    (saveDocument none doc o).trace = SaveTrace.mk 0 0 ∧
    (saveDocument none doc o).upserted = none ∧
    getAllDocuments none db e = .ok [] :=
  ⟨rfl, rfl, rfl, rfl⟩


/-- C1 (confirmed).  Upload-once policy.  Part one: a save of a document that
carries a (nonempty, decodable) binary payload while no object path is yet
recorded — the existing-row read found no row or a row without a path — issues
exactly one object-store put and one metadata upsert, succeeds, and records the
deterministic path.  Part two: a save whose existing-row read finds a row that
already records a path issues zero puts and exactly one upsert, and the
upserted payload carries that recorded path unchanged. -/
theorem upload_once (u : User) (doc : Document) (o : SaveOutcomes) :
    (∀ data, doc.base64Data = some data → data.isEmpty = false →
      (o.readExisting.toOption.bind (fun r => r.file_path)) = none →
      (base64ToBlob data doc.type).isSome = true →
      o.uploadError = none → o.upsertError = none →
      (saveDocument (some u) doc o).trace = SaveTrace.mk 1 1 ∧
      (saveDocument (some u) doc o).result = .ok () ∧
      (saveDocument (some u) doc o).upserted =
        some (mkPayload u doc (some (fileNameFor u doc)))) ∧
    (∀ r p, o.readExisting = .ok r → r.file_path = some p →
      (saveDocument (some u) doc o).trace.puts = 0 ∧
      (saveDocument (some u) doc o).trace.upserts = 1 ∧
      (saveDocument (some u) doc o).upserted = some (mkPayload u doc (some p))) := by
  constructor
  · intro data hb hne hpath hdec hupl hups
    rcases hblob : base64ToBlob data doc.type with _ | blob
    · rw [hblob] at hdec
      simp at hdec
    · refine ⟨?_, ?_, ?_⟩ <;>
        simp [saveDocument, hb, hne, hpath, hupl, hups, hblob]
  · intro r p hread hp
    have hopt : o.readExisting.toOption = some r := by
      rw [hread]
      rfl
    rcases hb : doc.base64Data with _ | data
    · refine ⟨?_, ?_, ?_⟩ <;>
        simp [saveDocument, upsertOnly, hb, hopt, hp] <;>
        rcases o.upsertError with _ | e <;> simp
    · by_cases hne : data.isEmpty
      · refine ⟨?_, ?_, ?_⟩ <;>
          simp [saveDocument, upsertOnly, hb, hne, hopt, hp] <;>
          rcases o.upsertError with _ | e <;> simp
      · refine ⟨?_, ?_, ?_⟩ <;>
          simp [saveDocument, upsertOnly, hb, hne, hopt, hp] <;>
          rcases o.upsertError with _ | e <;> simp

/-- Witness for C1: first save of `freshDoc` puts once and upserts once
recording `user-1/doc-1.pdf`; a re-save that finds the recorded path puts zero
times and keeps the path. -/
theorem upload_once_witness :
    ((saveDocument (some aliceUser) freshDoc freshSave).trace = SaveTrace.mk 1 1 ∧
     (saveDocument (some aliceUser) freshDoc freshSave).result = .ok () ∧
     (saveDocument (some aliceUser) freshDoc freshSave).upserted =
       some (mkPayload aliceUser freshDoc (some (fileNameFor aliceUser freshDoc)))) ∧
    ((saveDocument (some aliceUser) metaDoc resaveOutcomes).trace.puts = 0 ∧
     (saveDocument (some aliceUser) metaDoc resaveOutcomes).trace.upserts = 1 ∧
     (saveDocument (some aliceUser) metaDoc resaveOutcomes).upserted =
       some (mkPayload aliceUser metaDoc (some ("user-1/doc-1.pdf")))) :=
  ⟨(upload_once aliceUser freshDoc freshSave).1 _ rfl rfl rfl (by decide) rfl rfl,
   (upload_once aliceUser metaDoc resaveOutcomes).2 _ _ rfl rfl⟩

/-- C4 (corrected), counterexample.  Two store errors do not propagate: a save
whose existing-row read fails with a store error still returns ok (the source
destructures only `data` and drops `error`), and a delete whose row read fails
with a store error still returns ok (the result of the read is unchecked), so the
claim that every store error surfaces to the caller is false. -/
theorem swallowed_errors_counterexample :
    (saveDocument (some aliceUser) metaDoc readFailSave).result = .ok () ∧
    (deleteDocument aliceUser exDb ("doc-1") readFailDelete).2 = .ok () :=
  ⟨rfl, rfl⟩

/-- C4 (corrected), amended claim.  Errors of the object-store upload, of the
metadata upsert, of the list select, of the object download (both transport
fault and missing object), of the metadata row delete, and of the bulk delete
all propagate to the caller; only the existing-row read inside save and the row
read and object-store remove inside delete are unchecked and silently
swallowed. -/
theorem error_propagation_amended (u : User) (doc : Document) (o : SaveOutcomes)
    (db : DB) (p docId : String) (dOut : DeleteOutcomes) (e : StoreErr) :
    (∀ data, doc.base64Data = some data → data.isEmpty = false →
      (o.readExisting.toOption.bind (fun r => r.file_path)) = none →
      (base64ToBlob data doc.type).isSome = true →
      o.uploadError = some e →
      (saveDocument (some u) doc o).result = .error (.store e)) ∧
    (doc.base64Data = none → o.upsertError = some e →
      (saveDocument (some u) doc o).result = .error (.store e)) ∧
    (getAllDocuments (some u) db (some e) = .error e) ∧
    (loadDocumentFile db p true = .error .storeError) ∧
    (lookupObject db p = none → loadDocumentFile db p false = .error .notFound) ∧
    (dOut.deleteFails = true → (deleteDocument u db docId dOut).2 = .error .storeError) ∧
    (clearAllData u db (some e) = (db, .error e)) := by
  refine ⟨?_, ?_, rfl, rfl, ?_, ?_, rfl⟩
  · intro data hb hne hpath hdec hupl
    rcases hblob : base64ToBlob data doc.type with _ | blob
    · rw [hblob] at hdec
      simp at hdec
    · simp [saveDocument, hb, hne, hpath, hupl, hblob]
  · intro hb hups
    simp [saveDocument, upsertOnly, hb, hups]
  · intro h
    simp [loadDocumentFile, h]
  · intro h
    simp [deleteDocument, h]

/-- Witness for the amended C4: the upload error and the upsert error each
surface on a concrete save, a missing object surfaces as not-found, and a
failing row delete surfaces on a concrete delete. -/
theorem error_propagation_amended_witness :
    (saveDocument (some aliceUser) freshDoc uploadFailSave).result =
      .error (.store .storeError) ∧
    (saveDocument (some aliceUser) metaDoc upsertFailSave).result =
      .error (.store .storeError) ∧
    loadDocumentFile exDb ("missing/path.pdf") false = .error .notFound ∧
    (deleteDocument aliceUser exDb ("doc-1") (DeleteOutcomes.mk false false true)).2 =
      .error .storeError :=
  ⟨(error_propagation_amended aliceUser freshDoc uploadFailSave exDb ("p") ("doc-1")
      (DeleteOutcomes.mk false false true) .storeError).1 _ rfl rfl rfl (by decide) rfl,
   (error_propagation_amended aliceUser metaDoc upsertFailSave exDb ("p") ("doc-1")
      (DeleteOutcomes.mk false false true) .storeError).2.1 rfl rfl,
   (error_propagation_amended aliceUser metaDoc upsertFailSave exDb ("missing/path.pdf")
      ("doc-1") (DeleteOutcomes.mk false false true) .storeError).2.2.2.2.1 rfl,
   (error_propagation_amended aliceUser metaDoc upsertFailSave exDb ("p") ("doc-1")
      (DeleteOutcomes.mk false false true) .storeError).2.2.2.2.2.1 rfl⟩


/-- C5 (corrected), counterexample.  A row owned by the calling user whose id
is the sentinel UUID of the `.neq` filter survives `clearAllData`: the table
that held exactly this caller-owned row still holds it afterwards, so the claim
that every row owned by the caller is removed is false. -/
theorem clearAll_sentinel_counterexample :
    (clearAllData aliceUser (DB.mk [sentinelRow] []) none).1.rows = [sentinelRow] ∧
    sentinelRow.user_id = aliceUser.id :=
  ⟨rfl, rfl⟩

/-- C5 (corrected), amended claim.  `clearAllData` issues one row delete whose
only filter is `id ≠ zeroUuid` (the sentinel standing for "delete all"); with
the server-side per-user isolation this removes exactly the rows of the caller whose
id differs from the sentinel.  Rows of other owners are untouched, a
caller-owned row with the sentinel id survives, and the object store is not
cleaned at all. -/
theorem clearAll_amended (u : User) (db : DB) (r : Row) :
    (r ∈ (clearAllData u db none).1.rows ↔
      r ∈ db.rows ∧ (r.user_id ≠ u.id ∨ r.id = zeroUuid)) ∧
    (clearAllData u db none).2 = .ok () ∧
    (clearAllData u db none).1.objects = db.objects := by
  refine ⟨?_, rfl, rfl⟩
  simp only [clearAllData, List.mem_filter, decide_not, Bool.not_eq_eq_eq_not,
    Bool.not_true, decide_eq_false_iff_not]
  constructor
  · rintro ⟨hmem, hp⟩
    refine ⟨hmem, ?_⟩
    by_cases hu : r.user_id = u.id
    · right
      by_contra hz
      exact hp ⟨hu, hz⟩
    · left
      exact hu
  · rintro ⟨hmem, hor⟩
    refine ⟨hmem, ?_⟩
    rintro ⟨hu, hz⟩
    rcases hor with h | h
    · exact h hu
    · exact hz h

/-- C6 (confirmed).  Fan-out atomicity of the deep-dive batch: if any of the
three generation calls that is actually needed (its field not cached) fails,
the document is returned unchanged — none of the three results is persisted;
when all three slots resolve (cached or generated), all three fields are set
together. -/
theorem deepDive_all_or_nothing (doc : Document) (o : DeepDiveOutcomes) :
    (((doc.mindMap = none ∧ o.mindMapResult = .error .genError) ∨
      (doc.strategicAnalysis = none ∧ o.analysisResult = .error .genError) ∨
      (doc.keyCitations = none ∧ o.citationsResult = .error .genError)) →
        loadDeepDive doc o = doc) ∧
    (∀ m sa kc,
      (doc.mindMap = some m ∨ (doc.mindMap = none ∧ o.mindMapResult = .ok m)) →
      (doc.strategicAnalysis = some sa ∨
        (doc.strategicAnalysis = none ∧ o.analysisResult = .ok sa)) →
      (doc.keyCitations = some kc ∨
        (doc.keyCitations = none ∧ o.citationsResult = .ok kc)) →
      (loadDeepDive doc o).mindMap = some m ∧
      (loadDeepDive doc o).strategicAnalysis = some sa ∧
      (loadDeepDive doc o).keyCitations = some kc) := by
  constructor
  · intro h
    rcases hm : doc.mindMap with _ | m <;>
      rcases hs : doc.strategicAnalysis with _ | sa <;>
        rcases hk : doc.keyCitations with _ | kc <;>
          rcases hmr : o.mindMapResult with em | m2 <;>
            rcases har : o.analysisResult with ea | sa2 <;>
              rcases hcr : o.citationsResult with ec | kc2 <;>
                simp_all [loadDeepDive]
  · intro m sa kc h1 h2 h3
    rcases hm : doc.mindMap with _ | m0 <;>
      rcases hs : doc.strategicAnalysis with _ | sa0 <;>
        rcases hk : doc.keyCitations with _ | kc0 <;>
          rcases hmr : o.mindMapResult with em | m2 <;>
            rcases har : o.analysisResult with ea | sa2 <;>
              rcases hcr : o.citationsResult with ec | kc2 <;>
                simp_all [loadDeepDive]

/-- Witness for C6: on a document with none of the three artifacts cached, a
failing mind-map generation leaves the document unchanged, while an
all-successful batch sets all three fields. -/
theorem deepDive_all_or_nothing_witness :
    loadDeepDive freshDoc genFailOutcomes = freshDoc ∧
    (loadDeepDive freshDoc genOkOutcomes).mindMap = some (MindMapNode.node ("root") []) ∧
    (loadDeepDive freshDoc genOkOutcomes).strategicAnalysis = some ("analysis") ∧
    (loadDeepDive freshDoc genOkOutcomes).keyCitations = some [] :=
  ⟨(deepDive_all_or_nothing freshDoc genFailOutcomes).1 (Or.inl ⟨rfl, rfl⟩),
   ((deepDive_all_or_nothing freshDoc genOkOutcomes).2 _ _ _
      (Or.inr ⟨rfl, rfl⟩) (Or.inr ⟨rfl, rfl⟩) (Or.inr ⟨rfl, rfl⟩)).1,
   ((deepDive_all_or_nothing freshDoc genOkOutcomes).2 _ _ _
      (Or.inr ⟨rfl, rfl⟩) (Or.inr ⟨rfl, rfl⟩) (Or.inr ⟨rfl, rfl⟩)).2.1,
   ((deepDive_all_or_nothing freshDoc genOkOutcomes).2 _ _ _
      (Or.inr ⟨rfl, rfl⟩) (Or.inr ⟨rfl, rfl⟩) (Or.inr ⟨rfl, rfl⟩)).2.2⟩

/-- Descending insertion keeps the inserted element and the list. -/
theorem insertDesc_perm (r : Row) (l : List Row) : (insertDesc r l).Perm (r :: l) := by
  induction l with
  | nil => exact List.Perm.refl _
  | cons x xs ih =>
      by_cases h : x.created_at ≤ r.created_at
      · simp only [insertDesc, if_pos h]
        exact List.Perm.refl _
      · simp only [insertDesc, if_neg h]
        exact (ih.cons x).trans (List.Perm.swap r x xs)

/-- Descending sort is a permutation of its input. -/
theorem sortDesc_perm (l : List Row) : (sortDesc l).Perm l := by
  induction l with
  | nil => exact List.Perm.refl _
  | cons x xs ih => exact (insertDesc_perm x (sortDesc xs)).trans (ih.cons x)

/-- Descending insertion preserves descending sortedness. -/
theorem insertDesc_pairwise (r : Row) (l : List Row)
    (h : List.Pairwise (fun a b => b.created_at ≤ a.created_at) l) :
    List.Pairwise (fun a b => b.created_at ≤ a.created_at) (insertDesc r l) := by
  induction l with
  | nil => simp [insertDesc]
  | cons x xs ih =>
      rcases List.pairwise_cons.mp h with ⟨hx, hxs⟩
      by_cases hc : x.created_at ≤ r.created_at
      · simp only [insertDesc, if_pos hc]
        refine List.pairwise_cons.mpr ⟨?_, h⟩
        intro y hy
        rcases List.mem_cons.mp hy with rfl | hy2
        · exact hc
        · exact le_trans (hx y hy2) hc
      · simp only [insertDesc, if_neg hc]
        refine List.pairwise_cons.mpr ⟨?_, ih hxs⟩
        intro y hy
        rcases List.mem_cons.mp ((insertDesc_perm r xs).mem_iff.mp hy) with rfl | hy2
        · omega
        · exact hx y hy2

/-- Descending sort produces a descending list. -/
theorem sortDesc_pairwise (l : List Row) :
    List.Pairwise (fun a b => b.created_at ≤ a.created_at) (sortDesc l) := by
  induction l with
  | nil => simp [sortDesc]
  | cons x xs ih => exact insertDesc_pairwise x (sortDesc xs) ih

/-- C8 (confirmed; the per-user visibility of the select is the server-side
row isolation modelled from the spec).  `getAllDocuments` returns one
reconstructed Document per stored row of the calling owner — the returned rows
are a permutation of the rows of the owner — ordered by `created_at` descending,
and every reconstructed Document has its binary payload absent. -/
theorem list_semantics (u : User) (db : DB) :
    (sortDesc (visibleRows u db)).Perm (db.rows.filter (fun r => r.user_id = u.id)) ∧
    List.Pairwise (fun a b => b.created_at ≤ a.created_at) (sortDesc (visibleRows u db)) ∧
    getAllDocuments (some u) db none =
      .ok ((sortDesc (visibleRows u db)).map rowToDocument) ∧
    (∀ r : Row, (rowToDocument r).base64Data = none) :=
  ⟨sortDesc_perm _, sortDesc_pairwise _, rfl, fun _ => rfl⟩


/-- A delete whose row delete succeeds returns ok, and the surviving rows are
exactly the previous rows minus the target (the object-store branch never
touches rows). -/
theorem deleteDocument_run (u : User) (db : DB) (docId : String) (o : DeleteOutcomes)
    (hdel : o.deleteFails = false) :
    (deleteDocument u db docId o).2 = .ok () ∧
    (deleteDocument u db docId o).1.rows =
      db.rows.filter (fun r => ¬ matchesDoc docId u r) := by
  by_cases hr : o.readFails
  · constructor <;> simp [deleteDocument, hdel, hr]
  · rcases hf : db.rows.find? (fun r => matchesDoc docId u r) with _ | r0
    · constructor <;> simp [deleteDocument, hdel, hr, hf]
    · rcases hp : r0.file_path with _ | p
      · constructor <;> simp [deleteDocument, hdel, hr, hf, hp]
      · by_cases hrm : o.removeFails
        · constructor <;> simp [deleteDocument, hdel, hr, hf, hp, hrm]
        · constructor <;> simp [deleteDocument, hdel, hr, hf, hp, hrm]

/-- When every call of a delete succeeds and the found row records a path, the
object at that path is removed from the store. -/
theorem deleteDocument_objects_removed (u : User) (db : DB) (docId : String)
    (o : DeleteOutcomes) (hr : o.readFails = false) (hrm : o.removeFails = false)
    (hdel : o.deleteFails = false) (r0 : Row) (p : String)
    (hf : db.rows.find? (fun r => matchesDoc docId u r) = some r0)
    (hp : r0.file_path = some p) :
    (deleteDocument u db docId o).1.objects = db.objects.filter (fun x => x.1 ≠ p) := by
  simp [deleteDocument, hr, hrm, hdel, hf, hp]

/-- C9 (corrected), counterexample.  A delete whose object-store remove fails
(its result is discarded by the source) still completes with ok, yet hydrating
the recorded path afterwards returns the file content instead of failing with
not-found, so the claim that a successfully completed delete makes hydration
fail is false. -/
theorem delete_then_hydrate_counterexample :
    (deleteDocument aliceUser exDb ("doc-1") removeFailDelete).2 = .ok () ∧
    loadDocumentFile (deleteDocument aliceUser exDb ("doc-1") removeFailDelete).1
      ("user-1/doc-1.pdf") false = .ok (blobToBase64 exBlob) :=
  ⟨rfl, rfl⟩

/-- C9 (corrected), amended claim.  After a `deleteDocument` whose row delete
succeeds, the operation reports ok and a subsequent list never contains a
document with the deleted id; and provided the row read and the object-store
remove also succeeded (both results are discarded by the source, so their
failure would not surface), hydrating the recorded path fails with not-found. -/
theorem delete_effective_amended (u : User) (db : DB) (docId : String)
    (o : DeleteOutcomes) (hdel : o.deleteFails = false) :
    (deleteDocument u db docId o).2 = .ok () ∧
    (∀ l, getAllDocuments (some u) (deleteDocument u db docId o).1 none = .ok l →
       ∀ d, d ∈ l → d.id ≠ docId) ∧
    (o.readFails = false → o.removeFails = false →
      ∀ p, ((db.rows.find? (fun r => matchesDoc docId u r)).bind
              (fun r => r.file_path)) = some p →
        loadDocumentFile (deleteDocument u db docId o).1 p false = .error .notFound) := by
  obtain ⟨hok, hrows⟩ := deleteDocument_run u db docId o hdel
  refine ⟨hok, ?_, ?_⟩
  · intro l hl d hd
    have hl2 : (sortDesc (visibleRows u (deleteDocument u db docId o).1)).map rowToDocument
        = l := by
      simpa [getAllDocuments] using hl
    rw [← hl2] at hd
    rcases List.mem_map.mp hd with ⟨r, hrmem, rfl⟩
    have hr2 : r ∈ visibleRows u (deleteDocument u db docId o).1 :=
      (sortDesc_perm _).mem_iff.mp hrmem
    have hr3 : r ∈ (deleteDocument u db docId o).1.rows ∧ r.user_id = u.id := by
      simpa [visibleRows, List.mem_filter] using hr2
    rw [hrows] at hr3
    have hr4 := (List.mem_filter.mp hr3.1).2
    simp only [decide_not, Bool.not_eq_eq_eq_not, Bool.not_true,
      decide_eq_false_iff_not] at hr4
    intro hid
    exact hr4 ⟨hid, hr3.2⟩

  · intro hrf hrm p hp
    rcases hfind : db.rows.find? (fun r => matchesDoc docId u r) with _ | r0
    · rw [hfind] at hp
      simp at hp
    · rw [hfind] at hp
      simp only [Option.some_bind] at hp
      have hobj := deleteDocument_objects_removed u db docId o hrf hrm hdel r0 p hfind hp
      have hlook : lookupObject (deleteDocument u db docId o).1 p = none := by
        unfold lookupObject
        rw [hobj, List.find?_eq_none.mpr ?_]
        · rfl
        · intro x hx hcontra
          have hx2 := (List.mem_filter.mp hx).2
          simp only [decide_not, Bool.not_eq_eq_eq_not, Bool.not_true,
            decide_eq_false_iff_not] at hx2
          exact hx2 (of_decide_eq_true hcontra)
      simp [loadDocumentFile, hlook]

/-- Witness for the amended C9: a fully successful delete of the stored
document reports ok, and hydrating its recorded path afterwards fails with
not-found. -/
theorem delete_effective_amended_witness :
    (deleteDocument aliceUser exDb ("doc-1") okDelete).2 = .ok () ∧
    loadDocumentFile (deleteDocument aliceUser exDb ("doc-1") okDelete).1
      ("user-1/doc-1.pdf") false = .error .notFound :=
  ⟨(delete_effective_amended aliceUser exDb ("doc-1") okDelete rfl).1,
   (delete_effective_amended aliceUser exDb ("doc-1") okDelete rfl).2.2 rfl rfl
     ("user-1/doc-1.pdf") rfl⟩

end Lumina
